import Mathlib

/-!
Shallow embedding of the extraction-and-aggregation pipeline of the
UniqueRusso/api repository (Vercel API route `search.js` and its variants
`src/unnamed/part_000`, `src/unnamed/part_001`, `src/unnamed/part_002`).

JavaScript strings are modelled as `List Char` where character-level
operations (`substring`, `length`, `trim`, `toLowerCase`, `includes`,
`startsWith`) matter, and as Lean `String` where only equality and
truthiness are used (titles, status messages).  The external effects
(HTTP fetch, JSDOM parse, Readability) are modelled by an oracle
`FetchResult` describing what the outside world returns for a URL:
either a non-ok HTTP response, a parsed document (document title plus
the result of `new Readability(doc).parse()`), or a thrown exception.
`Promise.all` over `Array.map` is modelled as `List.map`: it joins
results by index, so completion order of the concurrent extractions
does not exist in the model, exactly as it cannot influence the output
of `Promise.all`.  Each per-candidate processing function additionally
returns the list of URLs it passed to `fetchAndExtractReadableContent`,
so that "this URL was never fetched" is a statement about that log.
-/

/-- JavaScript `String.prototype.toLowerCase` (ASCII range, which covers
every literal the code compares against). -/
def jsToLower (s : List Char) : List Char := s.map Char.toLower

/-- JavaScript `String.prototype.trim`: drop whitespace from both ends. -/
def jsTrim (s : List Char) : List Char :=
  ((s.dropWhile Char.isWhitespace).reverse.dropWhile Char.isWhitespace).reverse

/-- JavaScript `a.includes(p)` on strings: `p` occurs as a contiguous
subsequence of `a`. -/
def jsIncludes (p : List Char) : List Char → Bool
  | [] => p.isEmpty
  | c :: tail => p.isPrefixOf (c :: tail) || jsIncludes p tail

/-- JavaScript `a || b` for strings: `a` unless `a` is falsy (empty). -/
def jsOr (a b : String) : String := if a = "" then b else a

/-- JavaScript `a || b` where `a` may be `undefined`/`null` (`none`) or an
empty (falsy) string. -/
def jsOrOpt (a : Option String) (b : String) : String :=
  match a with
  | none => b
  | some s => jsOr s b

/-- The three-character ellipsis literal `"..."` appended on truncation. -/
def ellipsis : List Char := "...".toList

/-- Boolean `startsWith` on Lean strings via their character lists (used
only by the bridge definition `classifyStatus`; the source files operate
on `List Char` directly). -/
def strStartsWith (p s : String) : Bool := p.data.isPrefixOf s.data

/-- Result of `new Readability(doc.window.document).parse()` when it is
non-null: a title (`""` models a falsy/absent title) and the text content.
The code tests `article && article.textContent` before trimming, so the
text is carried untrimmed here. -/
structure Article where
  title : String
  textContent : List Char

/-- Oracle describing what fetching and parsing one URL does:

* `httpError code` — `fetch` resolved but `response.ok` was false, with
  the given numeric HTTP status;
* `parsed docTitle article` — the body was fetched and `new JSDOM(html)`
  produced a document with `document.title = docTitle` (`""` for a falsy
  title) and `reader.parse()` returned `article` (`none` for null);
* `exn errorName docTitleIfParsed` — some step threw an exception with
  the given `error.name`; `docTitleIfParsed` is `some t` when the throw
  happened after the `pageTitle` variable was assigned from a document
  with title `t` (i.e. inside the Readability pass), `none` when the
  fetch / body read / JSDOM construction itself threw. -/
inductive FetchResult where
  | httpError (statusCode : Nat)
  | parsed (docTitle : String) (article : Option Article)
  | exn (errorName : String) (docTitleIfParsed : Option String)

/-- Status string literal shared by all variants for a successful
extraction. -/
def successStatus : String := "Content extracted successfully."

/-- Status string literal shared by all variants when Readability yields
no usable text. -/
def parseEmptyStatus : String :=
  "Readable content not found or page structure not suitable for extraction."

namespace SearchJs

/-- Return value of `fetchAndExtractReadableContent` in
`src/api/search.js` (no title field in this variant). -/
structure Outcome where
  status : String
  content : Option (List Char)

/-- Status string of `src/api/search.js` line 24 for a non-ok response. -/
def fetchFailedStatus (code : Nat) : String :=
  "Failed to fetch content (Status: " ++ (toString code ++ ").")

/-- Status string of `src/api/search.js` line 46 for a caught exception. -/
def transportStatus (errorName : String) : String :=
  "Error during content extraction: " ++ (errorName ++ ".")

/-- Embedding of `fetchAndExtractReadableContent`, `src/api/search.js`
lines 9–48.  The `try`/`catch` wrapping the whole body is the `exn`
branch; the function is total, so no exception escapes to the caller. -/
def fetchAndExtractReadableContent : FetchResult → Outcome
  | .httpError code => { status := fetchFailedStatus code, content := none }
  | .parsed _ article =>
    match article with
    | some art =>
      if art.textContent ≠ [] then
        let extractedText := jsTrim art.textContent
        let truncatedContent :=
          extractedText.take 4000 ++
            (if extractedText.length > 4000 then ellipsis else [])
        { status := successStatus, content := some truncatedContent }
      else
        { status := parseEmptyStatus, content := none }
    | none => { status := parseEmptyStatus, content := none }
  | .exn errorName _ => { status := transportStatus errorName, content := none }

end SearchJs

namespace Part000

/-- Return value of `fetchAndExtractReadableContent` in
`src/unnamed/part_000` lines 7–47 (and, with identical text, in
`src/unnamed/part_002` lines 7–47): status, content, and a page title. -/
structure Outcome where
  status : String
  content : Option (List Char)
  title : String

/-- Status string of `src/unnamed/part_000` line 23 for a non-ok
response. -/
def fetchFailedStatus (code : Nat) : String :=
  "Failed to fetch content (Status: " ++
    (toString code ++ "). It might be protected, private, or a login page.")

/-- Status string of `src/unnamed/part_000` line 45 for a caught
exception. -/
def transportStatus (errorName : String) : String :=
  "Error during content extraction: " ++
    (errorName ++ ". The site might be blocking automated access.")

/-- Embedding of `fetchAndExtractReadableContent`,
`src/unnamed/part_000` lines 7–47 (identical in `part_002`).
`pageTitle` starts as `"N/A"` and becomes `document.title || "N/A"`
once the document is parsed; the `catch` branch returns whatever value
`pageTitle` had when the exception was thrown. -/
def fetchAndExtractReadableContent : FetchResult → Outcome
  | .httpError code =>
    { status := fetchFailedStatus code, content := none, title := "N/A" }
  | .parsed docTitle article =>
    let pageTitle := jsOr docTitle "N/A"
    match article with
    | some art =>
      if art.textContent ≠ [] then
        let extractedText := jsTrim art.textContent
        let truncatedContent :=
          extractedText.take 4000 ++
            (if extractedText.length > 4000 then ellipsis else [])
        { status := successStatus, content := some truncatedContent,
          title := jsOr art.title pageTitle }
      else
        { status := parseEmptyStatus, content := none, title := pageTitle }
    | none => { status := parseEmptyStatus, content := none, title := pageTitle }
  | .exn errorName docTitleIfParsed =>
    { status := transportStatus errorName, content := none,
      title := match docTitleIfParsed with
               | none => "N/A"
               | some t => jsOr t "N/A" }

end Part000

/-- The spec's five-valued extraction status enumeration (spec §3). -/
inductive SpecStatus where
  | Success
  | FetchFailed
  | ParseEmpty
  | TransportError
  | Skipped
deriving DecidableEq

/-- Bridge from the status strings the code produces to the spec's
status enumeration.  The two prefix tests cover both variants of the
fetch-failure and transport-error messages (which differ only in an
appended explanatory sentence); every skip-style message ("no link
provided", the LinkedIn notice, "Processing not attempted yet.") falls
through to `Skipped`, as does an annotated result that carries no
`extracted_content_status` field at all (a candidate that was never
processed). -/
def classifyStatus (s : String) : SpecStatus :=
  if s = successStatus then .Success
  else if strStartsWith "Failed to fetch content (Status: " s then .FetchFailed
  else if s = parseEmptyStatus then .ParseEmpty
  else if strStartsWith "Error during content extraction: " s then .TransportError
  else .Skipped

/-- One SerpAPI `organic_results` entry as the handlers use it: the
fields the code reads or copies.  `link = none` models an entry with no
`link` field; `some []` models an empty-string link (both are falsy in
`if (newResult.link)`).  The object spread `{ ...result }` copies these
fields. -/
structure Candidate where
  title : String
  link : Option (List Char)
  snippet : String
deriving DecidableEq

/-- A result record after the handler is done with it.  `none` in
`extracted_content` stands for a null or absent field, `none` in
`extracted_content_status` for an absent field (the handlers only ever
write string statuses, never null). -/
structure AnnotatedResult where
  title : String
  link : Option (List Char)
  snippet : String
  extracted_content : Option (List Char)
  extracted_content_status : Option String
deriving DecidableEq

/-- A candidate embedded unchanged in the response: same fields, no
extraction fields attached. -/
def asAnnotated (c : Candidate) : AnnotatedResult :=
  { title := c.title, link := c.link, snippet := c.snippet,
    extracted_content := none, extracted_content_status := none }

/-- Spec-status of an annotated result: a missing status field means the
candidate was never processed, which the spec classifies as `Skipped`. -/
def specStatusOf (r : AnnotatedResult) : SpecStatus :=
  match r.extracted_content_status with
  | none => .Skipped
  | some s => classifyStatus s

/-- The environment a handler runs against: what fetching any given URL
returns.  `Promise.all` joins by index, so one deterministic oracle per
URL captures every completion order. -/
def FetchEnv : Type := List Char → FetchResult

/-- Literal tested by `newResult.link.toLowerCase().includes("linkedin.com/")`. -/
def linkedinMarker : List Char := "linkedin.com/".toList

/-- URL membership test of `src/api/search.js` line 109. -/
def isLinkedInUrl (l : List Char) : Bool := jsIncludes linkedinMarker (jsToLower l)

/-- Status string of `src/api/search.js` line 111 for a skipped LinkedIn
candidate. -/
def linkedInSkipStatus : String :=
  "Direct content extraction for LinkedIn profiles is generally not feasible due to login walls and site restrictions. Rely on snippets or ask the user for details."

/-- Status string for a candidate with no usable link (`search.js` line
119, `part_002` line 116). -/
def noLinkStatus : String := "No link provided in search result."

namespace SearchJs

/-- Embedding of the async arrow function mapped over the processed
slice in `src/api/search.js` lines 105–123: annotate one candidate,
and log the URL if and only if `fetchAndExtractReadableContent` was
invoked on it.  LinkedIn URLs are skipped without a fetch; a falsy link
yields the no-link status. -/
def processResult (env : FetchEnv) (result : Candidate) :
    AnnotatedResult × List (List Char) :=
  match result.link with
  | some link =>
    if link.isEmpty then
      ({ asAnnotated result with extracted_content_status := some noLinkStatus }, [])
    else if isLinkedInUrl link then
      ({ asAnnotated result with
           extracted_content := none,
           extracted_content_status := some linkedInSkipStatus }, [])
    else
      let ex := fetchAndExtractReadableContent (env link)
      ({ asAnnotated result with
           extracted_content := ex.content,
           extracted_content_status := some ex.status }, [link])
  | none =>
    ({ asAnnotated result with extracted_content_status := some noLinkStatus }, [])

end SearchJs

namespace Part002

/-- Embedding of the async arrow function of `src/unnamed/part_002`
lines 104–119.  The defaults `extracted_content: null` and
`extracted_content_status: "Processing not attempted yet."` are
overwritten on every path that terminates; unlike `search.js` there is
no LinkedIn check — every truthy link is fetched (the source comments:
"IT WILL NOW ATTEMPT TO FETCH ALL LINKS, INCLUDING LINKEDIN"). -/
def processResult (env : FetchEnv) (result : Candidate) :
    AnnotatedResult × List (List Char) :=
  match result.link with
  | some link =>
    if link.isEmpty then
      ({ asAnnotated result with extracted_content_status := some noLinkStatus }, [])
    else
      let ex := Part000.fetchAndExtractReadableContent (env link)
      ({ asAnnotated result with
           extracted_content := ex.content,
           extracted_content_status := some ex.status }, [link])
  | none =>
    ({ asAnnotated result with extracted_content_status := some noLinkStatus }, [])

end Part002

/-- Shared shape of the result-enhancement step of `src/api/search.js`
lines 99–128 and `src/unnamed/part_002` lines 100–124 (which differ only
in the per-candidate function): when the list is non-empty, `slice(0, 2)`
is mapped through the per-candidate processor under `Promise.all` and
`splice(0, 2, ...processed)` writes the processed records back over the
first two slots, leaving every later candidate untouched.  The second
component is the concatenated fetch log. -/
def enhanceWith (P : Candidate → AnnotatedResult × List (List Char))
    (results : List Candidate) : List AnnotatedResult × List (List Char) :=
  if results.length > 0 then
    let processed := (results.take 2).map P
    (processed.map Prod.fst ++ (results.drop 2).map asAnnotated,
     (processed.map Prod.snd).flatten)
  else (results.map asAnnotated, [])

/-- The `resultsToProcessLimit = 2` enhancement of `src/api/search.js`. -/
def SearchJs.enhanceResults (env : FetchEnv) (results : List Candidate) :
    List AnnotatedResult × List (List Char) :=
  enhanceWith (SearchJs.processResult env) results

/-- The `resultsToProcessLimit = 2` enhancement of `src/unnamed/part_002`. -/
def Part002.enhanceResults (env : FetchEnv) (results : List Candidate) :
    List AnnotatedResult × List (List Char) :=
  enhanceWith (Part002.processResult env) results

namespace Part000

/-- One Brave web result as `src/unnamed/part_000` reads it: `title`,
`url`, `description` and the optional `meta_url.path` chain value.
`none` models an absent field; empty strings are falsy in the `||`
fallbacks. -/
structure BraveResult where
  title : Option String
  url : Option (List Char)
  description : Option String
  meta_url_path : Option String
deriving DecidableEq

/-- Status string of `src/unnamed/part_000` line 150 for a candidate
without a link. -/
def noLinkBraveStatus : String := "No link provided in Brave search result."

/-- Embedding of the async arrow function of `src/unnamed/part_000`
lines 129–153: map a Brave result onto the response shape, run the
extraction on a truthy link, and override the title only when the
extracted title is truthy, not `"N/A"`, and differs from the mapped
title.  The second component logs the URL if and only if
`fetchAndExtractReadableContent` was invoked. -/
def mapAndProcess (env : FetchEnv) (braveResult : BraveResult) :
    AnnotatedResult × List (List Char) :=
  let mapped : AnnotatedResult :=
    { title := jsOrOpt braveResult.title "N/A",
      link := braveResult.url,
      snippet := jsOrOpt braveResult.description (jsOrOpt braveResult.meta_url_path "N/A"),
      extracted_content := none,
      extracted_content_status := some "Processing not attempted yet." }
  match braveResult.url with
  | some link =>
    if link.isEmpty then
      ({ mapped with extracted_content_status := some noLinkBraveStatus }, [])
    else
      let ex := fetchAndExtractReadableContent (env link)
      let withContent :=
        { mapped with extracted_content := ex.content,
                      extracted_content_status := some ex.status }
      (if ex.title ≠ "" ∧ ex.title ≠ "N/A" ∧ ex.title ≠ mapped.title then
         { withContent with title := ex.title }
       else withContent, [link])
  | none =>
    ({ mapped with extracted_content_status := some noLinkBraveStatus }, [])

/-- Embedding of the aggregation of `src/unnamed/part_000` lines
124–166: `processedOrganicResults` starts empty; when Brave returned
results, only `slice(0, 2)` is processed and **only those processed
records** form the `organic_results` of the response — candidates past
the cut are not passed through. -/
def handlerResults (env : FetchEnv) (braveResults : List BraveResult) :
    List AnnotatedResult × List (List Char) :=
  if braveResults.length > 0 then
    let processed := (braveResults.take 2).map (mapAndProcess env)
    (processed.map Prod.fst, (processed.map Prod.snd).flatten)
  else ([], [])

end Part000

/-- Outcome of the query-routing prelude shared verbatim by
`src/unnamed/part_000` lines 61–66 and `src/unnamed/part_002` lines
63–68.  `invalidUrlError` is the `res.status(400).json({ error:
"Invalid URL for direct fetching." })` response; `directFetch url`
proceeds to `fetchAndExtractReadableContent(url)`; `searchQuery q`
falls through to the search-provider block. -/
inductive Routed where
  | invalidUrlError
  | directFetch (actualUrl : List Char)
  | searchQuery (q : List Char)
deriving DecidableEq

/-- Embedding of the routing logic: if the (non-empty) query
case-insensitively starts with `"url:"`, take `substring(4)`; an empty
remainder or one that does not case-insensitively start with `"http"`
is a 400 validation error, anything else is fetched directly; queries
without the prefix go to search. -/
def routeQuery (queryOrUrl : List Char) : Routed :=
  if ("url:".toList).isPrefixOf (jsToLower queryOrUrl) then
    let actualUrl := queryOrUrl.drop 4
    if actualUrl.isEmpty || !(("http".toList).isPrefixOf (jsToLower actualUrl)) then
      .invalidUrlError
    else
      .directFetch actualUrl
  else
    .searchQuery queryOrUrl

/-- The single record returned in direct-fetch mode
(`src/unnamed/part_000` lines 73–80, identical in `part_002` lines
72–78). -/
structure DirectFetchRecord where
  source_url : List Char
  title : String
  snippet : List Char
  extracted_content : Option (List Char)
  extracted_content_status : String
deriving DecidableEq

/-- The `"N/A"` placeholder used for the snippet when the extracted
content is falsy. -/
def naSnippet : List Char := "N/A".toList

/-- Embedding of the direct-fetch response: the handler always answers
HTTP 200 with a full record; the snippet is the first 250 characters of
the content (ellipsis-suffixed when longer) when the content is truthy,
else `"N/A"`. -/
def directFetchResponse (env : FetchEnv) (actualUrl : List Char) :
    Nat × DirectFetchRecord :=
  let er := Part000.fetchAndExtractReadableContent (env actualUrl)
  (200,
   { source_url := actualUrl,
     title := er.title,
     snippet :=
       match er.content with
       | some c =>
         if c.isEmpty then naSnippet
         else c.take 250 ++ (if c.length > 250 then ellipsis else [])
       | none => naSnippet,
     extracted_content := er.content,
     extracted_content_status := er.status })

/-- The search-provider HTTP response as `src/api/search.js` sees it
before reading the body: `ok`/`status`/`statusText` from the fetch, and
`bodyText` for the `await serpResponse.text()` read in the error
branch. -/
structure SerpFetch where
  ok : Bool
  status : Nat
  statusText : String
  bodyText : String

/-- The parsed provider JSON body: the application-level `error` field
and the `organic_results` array. -/
structure SerpData where
  appError : Option String
  organic_results : List Candidate
deriving DecidableEq

/-- What the `src/api/search.js` handler sends back from its search
branch: either `res.status(code).json({ error, details })` or a 200
response whose `organic_results` were enhanced. -/
inductive SjsResponse where
  | errorResponse (httpStatus : Nat) (errorMsg : String) (details : Option String)
  | success (results : List AnnotatedResult)
deriving DecidableEq

/-- Embedding of the provider-handling part of the `search.js` handler,
lines 82–131: a non-ok provider response is surfaced with the provider
HTTP status and the error body as details; an application-level
`serpData.error` becomes a 400 error with that detail; otherwise the
organic results are enhanced and returned as a 200 success.  (The
`serpData` argument is only reached — as in the source — when the
provider response was ok.) -/
def SearchJs.handleSearch (env : FetchEnv) (serp : SerpFetch) (data : SerpData) :
    SjsResponse × List (List Char) :=
  if !serp.ok then
    (.errorResponse serp.status
      ("Failed to fetch from Search API (SerpAPI): " ++ serp.statusText)
      (some serp.bodyText), [])
  else
    match data.appError with
    | some e => (.errorResponse 400 "Search API application error" (some e), [])
    | none =>
      let enhanced := SearchJs.enhanceResults env data.organic_results
      (.success enhanced.1, enhanced.2)

namespace Part001

/-- What the single `fetch` + `response.json()` of `src/unnamed/part_001`
produces: either some step threw (network failure or non-JSON body), or
a JSON body was obtained together with the HTTP status of the response —
which the code never inspects. -/
inductive ProviderFetch where
  | throws
  | returns (httpStatus : Nat) (data : SerpData)

/-- The response of the `part_001` handler body. -/
inductive Response where
  | ok200 (data : SerpData)
  | err500
deriving DecidableEq

/-- Embedding of `src/unnamed/part_001` lines 11–18: whatever JSON the
provider call yields is sent back with `res.status(200)`, regardless of
the provider HTTP status and of any `error` field in the payload; only
a thrown exception produces the 500 error response. -/
def handler : ProviderFetch → Response
  | .throws => .err500
  | .returns _ data => .ok200 data

end Part001

/-! ### Helper lemmas about the status strings -/

/-- Appending cannot change a non-empty head character. -/
theorem head_data_append (s t : String) (c : Char) (h : s.data.head? = some c) :
    (s ++ t).data.head? = some c := by
  rw [String.data_append]
  cases hd : s.data with
  | nil => rw [hd] at h; simp at h
  | cons x xs => rw [hd] at h; simp at h; simp [h]

/-- Strings whose first characters differ are different. -/
theorem ne_of_data_head (s t : String) (h : s.data.head? ≠ t.data.head?) : s ≠ t :=
  fun he => h (he ▸ rfl)

/-- A list is a Boolean prefix of itself followed by anything. -/
theorem isPrefixOf_append_self (p t : List Char) : p.isPrefixOf (p ++ t) = true := by
  induction p with
  | nil => simp [List.isPrefixOf]
  | cons c cs ih => simp [List.isPrefixOf, ih]

/-- The Boolean prefix test fails when the heads differ. -/
theorem isPrefixOf_false_of_head (a b : Char) (p s : List Char) (h : a ≠ b) :
    (a :: p).isPrefixOf (b :: s) = false := by
  simp [List.isPrefixOf, h]

/-- Every transport-error status string differs from the success status. -/
theorem transportPre_ne_success (x : String) :
    ("Error during content extraction: " ++ x) ≠ successStatus := by
  refine ne_of_data_head _ _ ?_
  rw [head_data_append "Error during content extraction: " x 'E' (by decide)]
  decide

/-- Every fetch-failed status string differs from the success status. -/
theorem fetchFailedPre_ne_success (x : String) :
    ("Failed to fetch content (Status: " ++ x) ≠ successStatus := by
  refine ne_of_data_head _ _ ?_
  rw [head_data_append "Failed to fetch content (Status: " x 'F' (by decide)]
  decide

/-- Transport-error status strings classify as `TransportError` for any
embedded error name. -/
theorem classifyStatus_transportPre (x : String) :
    classifyStatus ("Error during content extraction: " ++ x) = .TransportError := by
  have h1 := transportPre_ne_success x
  have h2 : strStartsWith "Failed to fetch content (Status: "
      ("Error during content extraction: " ++ x) = false := by
    unfold strStartsWith
    rw [String.data_append]
    rw [show "Failed to fetch content (Status: ".data
        = 'F' :: "ailed to fetch content (Status: ".data from rfl]
    rw [show "Error during content extraction: ".data
        = 'E' :: "rror during content extraction: ".data from rfl]
    rw [List.cons_append]
    exact isPrefixOf_false_of_head _ _ _ _ (by decide)
  have h3 : ("Error during content extraction: " ++ x) ≠ parseEmptyStatus := by
    refine ne_of_data_head _ _ ?_
    rw [head_data_append "Error during content extraction: " x 'E' (by decide)]
    decide
  have h4 : strStartsWith "Error during content extraction: "
      ("Error during content extraction: " ++ x) = true := by
    unfold strStartsWith
    rw [String.data_append]
    exact isPrefixOf_append_self _ _
  simp [classifyStatus, h1, h2, h3, h4]

/-- Fetch-failed status strings classify as `FetchFailed` for any
embedded status code. -/
theorem classifyStatus_fetchFailedPre (x : String) :
    classifyStatus ("Failed to fetch content (Status: " ++ x) = .FetchFailed := by
  have h1 := fetchFailedPre_ne_success x
  have h2 : strStartsWith "Failed to fetch content (Status: "
      ("Failed to fetch content (Status: " ++ x) = true := by
    unfold strStartsWith
    rw [String.data_append]
    exact isPrefixOf_append_self _ _
  simp [classifyStatus, h1, h2]

/-! ### Content/status invariant of the two extractor variants -/

/-- In the `search.js` extractor, content is non-null exactly on the
success status. -/
theorem sjs_extract_content_iff (fr : FetchResult) :
    (SearchJs.fetchAndExtractReadableContent fr).content.isSome
      ↔ (SearchJs.fetchAndExtractReadableContent fr).status = successStatus := by
  cases fr with
  | httpError code =>
    simp [SearchJs.fetchAndExtractReadableContent, SearchJs.fetchFailedStatus,
      fetchFailedPre_ne_success]
  | parsed docTitle article =>
    cases article with
    | none => simp [SearchJs.fetchAndExtractReadableContent]; decide
    | some art =>
      by_cases h : art.textContent = []
      · simp [SearchJs.fetchAndExtractReadableContent, h]; decide
      · simp [SearchJs.fetchAndExtractReadableContent, h]
  | exn errorName dt =>
    simp [SearchJs.fetchAndExtractReadableContent, SearchJs.transportStatus,
      transportPre_ne_success]

/-- In the `part_000`/`part_002` extractor, content is non-null exactly
on the success status. -/
theorem part000_extract_content_iff (fr : FetchResult) :
    (Part000.fetchAndExtractReadableContent fr).content.isSome
      ↔ (Part000.fetchAndExtractReadableContent fr).status = successStatus := by
  cases fr with
  | httpError code =>
    simp [Part000.fetchAndExtractReadableContent, Part000.fetchFailedStatus,
      fetchFailedPre_ne_success]
  | parsed docTitle article =>
    cases article with
    | none => simp [Part000.fetchAndExtractReadableContent]; decide
    | some art =>
      by_cases h : art.textContent = []
      · simp [Part000.fetchAndExtractReadableContent, h]; decide
      · simp [Part000.fetchAndExtractReadableContent, h]
  | exn errorName dt =>
    simp [Part000.fetchAndExtractReadableContent, Part000.transportStatus,
      transportPre_ne_success]

/-- The status field of the `search.js` per-candidate processing is the
success status iff the content is non-null. -/
theorem sjs_process_content_iff (env : FetchEnv) (c : Candidate) :
    ((SearchJs.processResult env c).1.extracted_content).isSome
      ↔ (SearchJs.processResult env c).1.extracted_content_status
          = some successStatus := by
  cases hl : c.link with
  | none => simp [SearchJs.processResult, hl, asAnnotated]; decide
  | some link =>
    by_cases he : link.isEmpty
    · simp [SearchJs.processResult, hl, he, asAnnotated]; decide
    · by_cases hli : isLinkedInUrl link
      · simp [SearchJs.processResult, hl, he, hli, asAnnotated]; decide
      · simp [SearchJs.processResult, hl, he, hli, asAnnotated]
        exact sjs_extract_content_iff (env link)

/-- The status field of the `part_002` per-candidate processing is the
success status iff the content is non-null. -/
theorem part002_process_content_iff (env : FetchEnv) (c : Candidate) :
    ((Part002.processResult env c).1.extracted_content).isSome
      ↔ (Part002.processResult env c).1.extracted_content_status
          = some successStatus := by
  cases hl : c.link with
  | none => simp [Part002.processResult, hl, asAnnotated]; decide
  | some link =>
    by_cases he : link.isEmpty
    · simp [Part002.processResult, hl, he, asAnnotated]; decide
    · simp [Part002.processResult, hl, he, asAnnotated]
      exact part000_extract_content_iff (env link)

/-- The status field of the `part_000` per-candidate mapping is the
success status iff the content is non-null. -/
theorem part000_process_content_iff (env : FetchEnv) (b : Part000.BraveResult) :
    ((Part000.mapAndProcess env b).1.extracted_content).isSome
      ↔ (Part000.mapAndProcess env b).1.extracted_content_status
          = some successStatus := by
  cases hl : b.url with
  | none => simp [Part000.mapAndProcess, hl]; decide
  | some link =>
    by_cases he : link.isEmpty
    · simp [Part000.mapAndProcess, hl, he]; decide
    · by_cases ht : (Part000.fetchAndExtractReadableContent (env link)).title ≠ ""
          ∧ (Part000.fetchAndExtractReadableContent (env link)).title ≠ "N/A"
          ∧ (Part000.fetchAndExtractReadableContent (env link)).title
              ≠ jsOrOpt b.title "N/A"
      · simp [Part000.mapAndProcess, hl, he, ht]
        exact part000_extract_content_iff (env link)
      · simp [Part000.mapAndProcess, hl, he, ht]
        exact part000_extract_content_iff (env link)

/-- C1: for every extraction outcome the pipeline produces — from either
variant of `fetchAndExtractReadableContent`, from the per-candidate
processing of `search.js`, `part_002` and `part_000` (which covers the
successful, fetch-failure, empty-parse, transport-error, no-link and
LinkedIn-skip outcomes), and from a candidate passed through without
processing — the `extracted_content` field is non-null if and only if
the status is the success status; every non-success outcome carries
null content. -/
theorem c1_content_nonnull_iff_success :
    (∀ fr, (SearchJs.fetchAndExtractReadableContent fr).content.isSome
        ↔ (SearchJs.fetchAndExtractReadableContent fr).status = successStatus)
  ∧ (∀ fr, (Part000.fetchAndExtractReadableContent fr).content.isSome
        ↔ (Part000.fetchAndExtractReadableContent fr).status = successStatus)
  ∧ (∀ env c, ((SearchJs.processResult env c).1.extracted_content).isSome
        ↔ (SearchJs.processResult env c).1.extracted_content_status
            = some successStatus)
  ∧ (∀ env c, ((Part002.processResult env c).1.extracted_content).isSome
        ↔ (Part002.processResult env c).1.extracted_content_status
            = some successStatus)
  ∧ (∀ env b, ((Part000.mapAndProcess env b).1.extracted_content).isSome
        ↔ (Part000.mapAndProcess env b).1.extracted_content_status
            = some successStatus)
  ∧ (∀ c, ((asAnnotated c).extracted_content).isSome
        ↔ (asAnnotated c).extracted_content_status = some successStatus) :=
  ⟨sjs_extract_content_iff, part000_extract_content_iff,
   sjs_process_content_iff, part002_process_content_iff,
   part000_process_content_iff, fun c => by simp [asAnnotated]⟩

/-! ### Structure of the enhanced result lists -/

/-- The `splice(0, 2, ...processed)` enhancement preserves the list
length. -/
theorem enhanceWith_length (P : Candidate → AnnotatedResult × List (List Char))
    (rs : List Candidate) : (enhanceWith P rs).1.length = rs.length := by
  unfold enhanceWith
  by_cases h : rs.length > 0
  · simp only [h, if_pos, List.length_append, List.length_map, List.length_take,
      List.length_drop]
    omega
  · simp [h]

/-- Slot `i` of the enhanced list is the processed candidate `i` when
`i < 2` and the untouched candidate `i` otherwise. -/
theorem enhanceWith_getElem (P : Candidate → AnnotatedResult × List (List Char))
    (rs : List Candidate) (i : Nat) :
    (enhanceWith P rs).1[i]? =
      (rs[i]?).map (fun c => if i < 2 then (P c).1 else asAnnotated c) := by
  cases rs with
  | nil => simp [enhanceWith]
  | cons r rest =>
    have hpos : (r :: rest).length > 0 := by simp
    unfold enhanceWith
    rw [if_pos hpos]
    have hlen1 : ((((r :: rest).take 2).map P).map Prod.fst).length
        = min 2 (r :: rest).length := by
      rw [List.length_map, List.length_map, List.length_take]
    by_cases hin : i < (r :: rest).length
    · by_cases hi2 : i < 2
      · have hlt : i < ((((r :: rest).take 2).map P).map Prod.fst).length := by
          rw [hlen1, Nat.min_def]
          split <;> omega
        rw [List.getElem?_append, if_pos hlt, List.getElem?_map, List.getElem?_map,
          List.getElem?_take_of_lt hi2]
        cases hr : (r :: rest)[i]? with
        | none => simp
        | some c => simp [hi2]
      · have hge : ((((r :: rest).take 2).map P).map Prod.fst).length ≤ i := by
          rw [hlen1, Nat.min_def]
          split <;> omega
        have hlen2 : ((((r :: rest).take 2).map P).map Prod.fst).length = 2 := by
          rw [hlen1, Nat.min_def]
          split <;> omega
        rw [List.getElem?_append, if_neg (Nat.not_lt.mpr hge), hlen2,
          List.getElem?_map, List.getElem?_drop]
        have hidx : 2 + (i - 2) = i := by omega
        rw [hidx]
        cases hr : (r :: rest)[i]? with
        | none => simp
        | some c => simp [hi2]
    · have hout : (r :: rest).length ≤ i := Nat.not_lt.mp hin
      have h1 : (((((r :: rest).take 2).map P).map Prod.fst)
          ++ ((r :: rest).drop 2).map asAnnotated).length ≤ i := by
        rw [List.length_append, hlen1, List.length_map, List.length_drop,
          Nat.min_def]
        split <;> omega
      rw [List.getElem?_eq_none h1, List.getElem?_eq_none hout]
      simp

/-- Every URL in the log of the splice-style enhancement was logged by
the processing of one of the first two candidates. -/
theorem enhanceWith_log (P : Candidate → AnnotatedResult × List (List Char))
    (rs : List Candidate) (u : List Char) (hu : u ∈ (enhanceWith P rs).2) :
    ∃ c ∈ rs.take 2, u ∈ (P c).2 := by
  unfold enhanceWith at hu
  by_cases h : rs.length > 0
  · rw [if_pos h] at hu
    simp only [List.mem_flatten, List.mem_map] at hu
    obtain ⟨l, ⟨x, ⟨c, hc, rfl⟩, rfl⟩, hul⟩ := hu
    exact ⟨c, hc, hul⟩
  · rw [if_neg h] at hu
    simp at hu

/-- The `search.js` per-candidate processing only ever logs the
candidate's own link. -/
theorem sjs_process_log (env : FetchEnv) (c : Candidate) (u : List Char)
    (hu : u ∈ (SearchJs.processResult env c).2) : c.link = some u := by
  cases hl : c.link with
  | none => simp [SearchJs.processResult, hl] at hu
  | some link =>
    by_cases he : link.isEmpty
    · simp [SearchJs.processResult, hl, he] at hu
    · by_cases hli : isLinkedInUrl link
      · simp [SearchJs.processResult, hl, he, hli] at hu
      · simp [SearchJs.processResult, hl, he, hli] at hu
        rw [hu]

/-- The `part_002` per-candidate processing only ever logs the
candidate's own link. -/
theorem part002_process_log (env : FetchEnv) (c : Candidate) (u : List Char)
    (hu : u ∈ (Part002.processResult env c).2) : c.link = some u := by
  cases hl : c.link with
  | none => simp [Part002.processResult, hl] at hu
  | some link =>
    by_cases he : link.isEmpty
    · simp [Part002.processResult, hl, he] at hu
    · simp [Part002.processResult, hl, he] at hu
      rw [hu]

/-- Slot `i` of the `part_000` response is the processed entry `i` of
the first-two slice (and nothing exists past the slice). -/
theorem part000_handlerResults_getElem (env : FetchEnv)
    (bs : List Part000.BraveResult) (i : Nat) :
    (Part000.handlerResults env bs).1[i]? =
      ((bs.take 2)[i]?).map (fun b => (Part000.mapAndProcess env b).1) := by
  unfold Part000.handlerResults
  by_cases h : bs.length > 0
  · rw [if_pos h, List.getElem?_map, List.getElem?_map, Option.map_map]
    rfl
  · rw [if_neg h]
    have hnil : bs = [] := List.length_eq_zero.mp (by omega)
    subst hnil
    simp

/-- The `part_000` response length is the size of the processed slice,
`min 2 n`, not the input length. -/
theorem part000_handlerResults_length (env : FetchEnv)
    (bs : List Part000.BraveResult) :
    (Part000.handlerResults env bs).1.length = min 2 bs.length := by
  unfold Part000.handlerResults
  by_cases h : bs.length > 0
  · rw [if_pos h]
    simp [List.length_map, List.length_take]
  · rw [if_neg h]
    have hnil : bs = [] := List.length_eq_zero.mp (by omega)
    subst hnil
    simp

/-- A Brave result carrying no fields, used as a concrete test input. -/
def emptyBrave : Part000.BraveResult :=
  { title := none, url := none, description := none, meta_url_path := none }

/-- A fetch environment in which every URL answers with HTTP 404. -/
def env404 : FetchEnv := fun _ => .httpError 404

/-- A candidate without a link, used as a concrete test input. -/
def bareCandidate : Candidate := { title := "T", link := none, snippet := "s" }

/-- C2 counterexample: the `part_000` handler, given the three-element
candidate list the provider returned (`count=3`), responds with only
two result slots — the aggregated response does not contain one slot
per input candidate. -/
theorem c2_counterexample :
    ([emptyBrave, emptyBrave, emptyBrave] : List Part000.BraveResult).length = 3
    ∧ (Part000.handlerResults env404 [emptyBrave, emptyBrave, emptyBrave]).1.length
        = 2 := by
  exact ⟨rfl, rfl⟩

/-- C2 amended: in the `search.js` and `part_002` handlers the output
has exactly one slot per input candidate and slot `i` is derived from
candidate `i` (processed for `i < 2`, passed through unchanged
otherwise), for every fetch environment — hence for any completion
order of the concurrent extractions, which the index-joining
`Promise.all` makes irrelevant.  In the `part_000` handler the output
consists of exactly the processed first `min 2 n` candidates, in rank
order; candidates past the cut are dropped rather than passed
through. -/
theorem c2_amended (env : FetchEnv) (results : List Candidate)
    (bs : List Part000.BraveResult) :
    (SearchJs.enhanceResults env results).1.length = results.length
  ∧ (∀ i : Nat, (SearchJs.enhanceResults env results).1[i]? =
      (results[i]?).map
        (fun c => if i < 2 then (SearchJs.processResult env c).1 else asAnnotated c))
  ∧ (Part002.enhanceResults env results).1.length = results.length
  ∧ (∀ i : Nat, (Part002.enhanceResults env results).1[i]? =
      (results[i]?).map
        (fun c => if i < 2 then (Part002.processResult env c).1 else asAnnotated c))
  ∧ (Part000.handlerResults env bs).1.length = min 2 bs.length
  ∧ (∀ i : Nat, (Part000.handlerResults env bs).1[i]? =
      ((bs.take 2)[i]?).map (fun b => (Part000.mapAndProcess env b).1)) :=
  ⟨enhanceWith_length _ results,
   fun i => enhanceWith_getElem _ results i,
   enhanceWith_length _ results,
   fun i => enhanceWith_getElem _ results i,
   part000_handlerResults_length env bs,
   fun i => part000_handlerResults_getElem env bs i⟩

/-- C2 witness: the amended statement evaluated on a concrete
three-candidate list. -/
theorem c2_witness :
    (SearchJs.enhanceResults env404
        [bareCandidate, bareCandidate, bareCandidate]).1.length
      = ([bareCandidate, bareCandidate, bareCandidate] : List Candidate).length :=
  (c2_amended env404 [bareCandidate, bareCandidate, bareCandidate] []).1

/-- C4: in the `search.js` and `part_002` handlers, every candidate at a
position at or beyond the `resultsToProcessLimit` of 2 appears in the
output as the input candidate itself — unchanged fields, no
`extracted_content`, no status string attached (which the spec-level
classification reads as `Skipped`) — and every URL the handler passes
to `fetchAndExtractReadableContent` is the link of one of the first two
candidates, so a candidate past the cut is never sent through the
extractor. -/
theorem c4_tail_passthrough (env : FetchEnv) (results : List Candidate)
    (i : Nat) (hi : 2 ≤ i) :
    (SearchJs.enhanceResults env results).1[i]? = (results[i]?).map asAnnotated
  ∧ (Part002.enhanceResults env results).1[i]? = (results[i]?).map asAnnotated
  ∧ (∀ r, (SearchJs.enhanceResults env results).1[i]? = some r →
      specStatusOf r = .Skipped ∧ r.extracted_content = none
        ∧ r.extracted_content_status = none)
  ∧ (∀ r, (Part002.enhanceResults env results).1[i]? = some r →
      specStatusOf r = .Skipped ∧ r.extracted_content = none
        ∧ r.extracted_content_status = none)
  ∧ (∀ u, u ∈ (SearchJs.enhanceResults env results).2 →
      ∃ c ∈ results.take 2, c.link = some u)
  ∧ (∀ u, u ∈ (Part002.enhanceResults env results).2 →
      ∃ c ∈ results.take 2, c.link = some u) := by
  have h2 : ¬ i < 2 := Nat.not_lt.mpr hi
  have hs : (SearchJs.enhanceResults env results).1[i]?
      = (results[i]?).map asAnnotated := by
    rw [SearchJs.enhanceResults, enhanceWith_getElem]
    cases hr : results[i]? with
    | none => simp
    | some c => simp [h2]
  have hp : (Part002.enhanceResults env results).1[i]?
      = (results[i]?).map asAnnotated := by
    rw [Part002.enhanceResults, enhanceWith_getElem]
    cases hr : results[i]? with
    | none => simp
    | some c => simp [h2]
  refine ⟨hs, hp, ?_, ?_, ?_, ?_⟩
  · intro r hr
    rw [hs] at hr
    cases hc : results[i]? with
    | none => rw [hc] at hr; simp at hr
    | some c =>
      rw [hc] at hr
      simp at hr
      subst hr
      exact ⟨rfl, rfl, rfl⟩
  · intro r hr
    rw [hp] at hr
    cases hc : results[i]? with
    | none => rw [hc] at hr; simp at hr
    | some c =>
      rw [hc] at hr
      simp at hr
      subst hr
      exact ⟨rfl, rfl, rfl⟩
  · intro u hu
    obtain ⟨c, hc, hcu⟩ := enhanceWith_log _ results u hu
    exact ⟨c, hc, sjs_process_log env c u hcu⟩
  · intro u hu
    obtain ⟨c, hc, hcu⟩ := enhanceWith_log _ results u hu
    exact ⟨c, hc, part002_process_log env c u hcu⟩

/-- C4 witness: the pass-through of slot 2 evaluated on a concrete
three-candidate list. -/
theorem c4_witness :
    (SearchJs.enhanceResults env404
        [bareCandidate, bareCandidate, bareCandidate]).1[2]?
      = (([bareCandidate, bareCandidate, bareCandidate] :
            List Candidate)[2]?).map asAnnotated :=
  (c4_tail_passthrough env404 [bareCandidate, bareCandidate, bareCandidate] 2
    (by decide)).1

/-- C3: for every successfully extracted article text, writing `t` for
the whitespace-trimmed text, the returned content is `t.take 4000` with
`"..."` appended exactly when `t` is longer than 4000 characters; a
text of at most 4000 characters (in particular exactly 4000) is
returned whole with no ellipsis, 4001 characters yield 4000 characters
plus the ellipsis, and the content length never exceeds 4003.  The
`search.js` variant computes the same content as the
`part_000`/`part_002` variant. -/
theorem c3_truncation (docTitle artTitle : String) (textContent : List Char)
    (hne : textContent ≠ []) :
    (Part000.fetchAndExtractReadableContent
        (.parsed docTitle (some ⟨artTitle, textContent⟩))).content
      = some ((jsTrim textContent).take 4000 ++
          (if (jsTrim textContent).length > 4000 then ellipsis else []))
  ∧ (SearchJs.fetchAndExtractReadableContent
        (.parsed docTitle (some ⟨artTitle, textContent⟩))).content
      = (Part000.fetchAndExtractReadableContent
          (.parsed docTitle (some ⟨artTitle, textContent⟩))).content
  ∧ ((jsTrim textContent).length ≤ 4000 →
      (Part000.fetchAndExtractReadableContent
          (.parsed docTitle (some ⟨artTitle, textContent⟩))).content
        = some (jsTrim textContent))
  ∧ ((jsTrim textContent).length = 4001 →
      (Part000.fetchAndExtractReadableContent
          (.parsed docTitle (some ⟨artTitle, textContent⟩))).content
        = some ((jsTrim textContent).take 4000 ++ ellipsis))
  ∧ (∀ c, (Part000.fetchAndExtractReadableContent
        (.parsed docTitle (some ⟨artTitle, textContent⟩))).content = some c →
      c.length ≤ 4003) := by
  have hmain : (Part000.fetchAndExtractReadableContent
      (.parsed docTitle (some ⟨artTitle, textContent⟩))).content
      = some ((jsTrim textContent).take 4000 ++
          (if (jsTrim textContent).length > 4000 then ellipsis else [])) := by
    simp [Part000.fetchAndExtractReadableContent, hne]
  refine ⟨hmain, ?_, ?_, ?_, ?_⟩
  · rw [hmain]
    simp [SearchJs.fetchAndExtractReadableContent, hne]
  · intro hle
    rw [hmain, if_neg (by omega), List.append_nil, List.take_of_length_le hle]
  · intro h41
    rw [hmain, if_pos (by omega)]
  · intro c hc
    rw [hmain] at hc
    simp only [Option.some.injEq] at hc
    subst hc
    rw [List.length_append, List.length_take]
    by_cases hgt : (jsTrim textContent).length > 4000
    · rw [if_pos hgt]
      have : ellipsis.length = 3 := by decide
      rw [this, Nat.min_def]
      split <;> omega
    · rw [if_neg hgt]
      simp only [List.length_nil, Nat.add_zero, Nat.min_def]
      split <;> omega

/-- C3 witness: the truncation rule evaluated on a short concrete
text. -/
theorem c3_witness :
    (Part000.fetchAndExtractReadableContent
        (.parsed "D" (some ⟨"A", ['h', 'i', ' ']⟩))).content
      = some (jsTrim ['h', 'i', ' ']) :=
  (c3_truncation "D" "A" ['h', 'i', ' '] (by decide)).2.2.1 (by decide)

/-- A concrete LinkedIn profile URL. -/
def linkedInUrl : List Char := "https://www.linkedin.com/in/someone".toList

/-- A candidate pointing at the LinkedIn URL. -/
def linkedInCandidate : Candidate :=
  { title := "Someone", link := some linkedInUrl, snippet := "profile" }

/-- A fetch environment in which every URL parses into a small
article. -/
def envArticle : FetchEnv :=
  fun _ => .parsed "Doc Title" (some ⟨"Article Title", "body text".toList⟩)

/-- C5 counterexample: in the `part_002` handler (a cited source of the
claim) a LinkedIn candidate inside the processed slice is passed to the
network-fetch step — its URL appears in the fetch log — and it receives
the success status of the extraction, not a Skipped status. -/
theorem c5_counterexample :
    (Part002.enhanceResults envArticle [linkedInCandidate]).2 = [linkedInUrl]
    ∧ ((Part002.enhanceResults envArticle [linkedInCandidate]).1.map
        (fun r => r.extracted_content_status)) = [some successStatus] := by
  exact ⟨rfl, rfl⟩

/-- C5 amended: only the `search.js` handler checks for the LinkedIn
marker, and only within the first `maxProcessed` candidates: such a
candidate gets the explanatory skip status, null content, spec-status
`Skipped`, and is not fetched (its processing logs no URL), while the
`part_002` handler fetches the same link like any other.  (Candidates
beyond the cut are never fetched in either handler, by the C4
theorem's log property, but in `search.js` they carry no statusDetail
at all.) -/
theorem c5_amended (env : FetchEnv) (c : Candidate) (l : List Char)
    (hl : c.link = some l) (hne : l.isEmpty = false)
    (hli : isLinkedInUrl l = true) :
    (SearchJs.processResult env c).1.extracted_content_status
        = some linkedInSkipStatus
  ∧ (SearchJs.processResult env c).1.extracted_content = none
  ∧ (SearchJs.processResult env c).2 = []
  ∧ specStatusOf (SearchJs.processResult env c).1 = .Skipped
  ∧ (Part002.processResult env c).2 = [l] := by
  have hsk : classifyStatus linkedInSkipStatus = .Skipped := by decide
  refine ⟨?_, ?_, ?_, ?_, ?_⟩ <;>
    simp [SearchJs.processResult, Part002.processResult, hl, hne, hli,
      specStatusOf, asAnnotated, hsk]

/-- C5 witness: the amended statement evaluated on the concrete
LinkedIn candidate. -/
theorem c5_witness :
    (SearchJs.processResult envArticle linkedInCandidate).1.extracted_content_status
      = some linkedInSkipStatus :=
  (c5_amended envArticle linkedInCandidate linkedInUrl rfl (by decide)
    (by decide)).1

/-- C6: for every exception (any error name, thrown at any point of the
fetch or parse), both extractor variants return an outcome whose
content is null and whose status embeds the error name in the
transport-error message; that status is never the success status and
classifies as `TransportError`.  The extractors are total functions of
the oracle, so no exception propagates to the caller for a single
URL. -/
theorem c6_transport_error (errorName : String) (dt : Option String) :
    (SearchJs.fetchAndExtractReadableContent (.exn errorName dt)).content = none
  ∧ (SearchJs.fetchAndExtractReadableContent (.exn errorName dt)).status
      = "Error during content extraction: " ++ (errorName ++ ".")
  ∧ classifyStatus (SearchJs.fetchAndExtractReadableContent (.exn errorName dt)).status
      = .TransportError
  ∧ (SearchJs.fetchAndExtractReadableContent (.exn errorName dt)).status
      ≠ successStatus
  ∧ (Part000.fetchAndExtractReadableContent (.exn errorName dt)).content = none
  ∧ (Part000.fetchAndExtractReadableContent (.exn errorName dt)).status
      = "Error during content extraction: "
          ++ (errorName ++ ". The site might be blocking automated access.")
  ∧ classifyStatus (Part000.fetchAndExtractReadableContent (.exn errorName dt)).status
      = .TransportError
  ∧ (Part000.fetchAndExtractReadableContent (.exn errorName dt)).status
      ≠ successStatus :=
  ⟨rfl, rfl, classifyStatus_transportPre _, transportPre_ne_success _,
   rfl, rfl, classifyStatus_transportPre _, transportPre_ne_success _⟩

/-- C6 witness: the transport-error outcome evaluated at a concrete
error name. -/
theorem c6_witness :
    (SearchJs.fetchAndExtractReadableContent (.exn "AbortError" none)).content
      = none :=
  (c6_transport_error "AbortError" none).1

/-- Modelled from the spec: a necessary condition for "a syntactically
valid absolute HTTP(S) URL" — it must begin, case-insensitively, with
the scheme `"http://"` or `"https://"` and have a non-empty remainder
after the scheme.  (The source performs no such check; this definition
exists only to state the spec's requirement and compare the router
against it.) -/
def specValidAbsoluteHttpUrl (s : List Char) : Bool :=
  (("http://".toList).isPrefixOf (jsToLower s)
      && decide ("http://".toList.length < s.length))
  || (("https://".toList).isPrefixOf (jsToLower s)
      && decide ("https://".toList.length < s.length))

/-- C7 counterexample: the raw query `"url:httpfoo"` begins with the
`"url:"` prefix and its remainder `"httpfoo"` is not a syntactically
valid absolute HTTP(S) URL, yet the router does not report a validation
error — it sends `"httpfoo"` straight to the extraction pipeline,
because the code only checks that the remainder starts with `"http"`.
(The spec's own example `"url:not-a-url"` does yield the validation
error, as the amended theorem shows.) -/
theorem c7_counterexample :
    specValidAbsoluteHttpUrl ("httpfoo".toList) = false
    ∧ routeQuery ("url:httpfoo".toList) = .directFetch ("httpfoo".toList) := by
  exact ⟨by decide, by decide⟩

/-- C7 amended: for a query that case-insensitively begins with
`"url:"`, the router never falls back to treating the input as a search
query; it reports the 400 validation error exactly when the remainder
`substring(4)` is empty or does not case-insensitively start with
`"http"` — in particular for `"url:not-a-url"` — and otherwise sends
the remainder to the extraction pipeline even when it is not a
syntactically valid absolute HTTP(S) URL. -/
theorem c7_amended (q : List Char)
    (hp : ("url:".toList).isPrefixOf (jsToLower q) = true) :
    (∀ r, routeQuery q ≠ .searchQuery r)
  ∧ (((q.drop 4).isEmpty
        || !(("http".toList).isPrefixOf (jsToLower (q.drop 4)))) = true →
      routeQuery q = .invalidUrlError)
  ∧ (((q.drop 4).isEmpty
        || !(("http".toList).isPrefixOf (jsToLower (q.drop 4)))) = false →
      routeQuery q = .directFetch (q.drop 4))
  ∧ routeQuery ("url:not-a-url".toList) = .invalidUrlError := by
  have hro : routeQuery q =
      if ((q.drop 4).isEmpty
          || !(("http".toList).isPrefixOf (jsToLower (q.drop 4)))) = true
      then Routed.invalidUrlError else Routed.directFetch (q.drop 4) := by
    unfold routeQuery
    rw [if_pos hp]
  refine ⟨?_, ?_, ?_, by decide⟩
  · intro r
    rw [hro]
    split <;> simp
  · intro hbad
    rw [hro, if_pos hbad]
  · intro hgood
    rw [hro, if_neg (by rw [hgood]; decide)]

/-- C7 witness: the amended statement applied to the spec's example
query. -/
theorem c7_witness : routeQuery ("url:not-a-url".toList) = .invalidUrlError :=
  (c7_amended ("url:not-a-url".toList) (by decide)).2.2.2

/-- A provider payload carrying an application-level error field. -/
def erroredSerpData : SerpData :=
  { appError := some "rate limited", organic_results := [] }

/-- C8 counterexample: the `part_001` handler (a cited source of the
claim), given a provider response with HTTP status 500 whose JSON body
carries an application-level error field, returns that payload as an
HTTP 200 success response instead of a structured error. -/
theorem c8_counterexample :
    Part001.handler (.returns 500 erroredSerpData)
      = .ok200 erroredSerpData := rfl

/-- C8 amended: the `search.js` handler surfaces a non-success provider
response as an error response carrying the provider's HTTP status and
its error body as details, surfaces an application-level error field as
a 400 error response carrying that field, and produces a success
response only when the provider response was ok and carried no error
field; the `part_001` handler instead returns whatever JSON body the
provider produced as an HTTP 200 success, regardless of the provider
status and of any error field. -/
theorem c8_amended (env : FetchEnv) (serp : SerpFetch) (data : SerpData) :
    (serp.ok = false →
      (SearchJs.handleSearch env serp data).1
        = .errorResponse serp.status
            ("Failed to fetch from Search API (SerpAPI): " ++ serp.statusText)
            (some serp.bodyText))
  ∧ (∀ e, serp.ok = true → data.appError = some e →
      (SearchJs.handleSearch env serp data).1
        = .errorResponse 400 "Search API application error" (some e))
  ∧ (∀ rs, (SearchJs.handleSearch env serp data).1 = .success rs →
      serp.ok = true ∧ data.appError = none)
  ∧ (∀ st d, Part001.handler (.returns st d) = .ok200 d) := by
  refine ⟨?_, ?_, ?_, fun st d => rfl⟩
  · intro hok
    simp [SearchJs.handleSearch, hok]
  · intro e hok herr
    simp [SearchJs.handleSearch, hok, herr]
  · intro rs hrs
    by_cases hok : serp.ok
    · refine ⟨hok, ?_⟩
      cases herr : data.appError with
      | none => rfl
      | some e => simp [SearchJs.handleSearch, hok, herr] at hrs
    · simp [SearchJs.handleSearch, hok] at hrs

/-- C8 witness: the amended statement evaluated on a concrete failed
provider response. -/
theorem c8_witness :
    (SearchJs.handleSearch env404
        { ok := false, status := 500, statusText := "Internal Server Error",
          bodyText := "boom" } erroredSerpData).1
      = .errorResponse 500
          ("Failed to fetch from Search API (SerpAPI): "
            ++ "Internal Server Error") (some "boom") :=
  (c8_amended env404
    { ok := false, status := 500, statusText := "Internal Server Error",
      bodyText := "boom" } erroredSerpData).1 rfl

/-- A candidate whose provider title differs from the extracted one. -/
def titledCandidate : Candidate :=
  { title := "Original", link := some ("http://x".toList), snippet := "s" }

/-- C9 counterexample: under a fetch environment whose extraction
yields the non-empty title "Article Title", which differs from the
candidate's title "Original", the `part_002` handler (a cited source of
the claim) still keeps the candidate's original title — its
title-update code is commented out — contradicting "the title field is
replaced ... exactly when the extracted title is non-empty and differs
from the candidate's title". -/
theorem c9_counterexample :
    (Part000.fetchAndExtractReadableContent
        (envArticle ("http://x".toList))).title = "Article Title"
    ∧ ("Article Title" : String) ≠ "Original"
    ∧ (Part002.processResult envArticle titledCandidate).1.title = "Original" :=
  ⟨rfl, by decide, rfl⟩

/-- C9 amended: in every handler the annotated result inherits the
candidate's fields and takes `extracted_content` and
`extracted_content_status` from the extraction outcome; the title is
replaced by the extracted title only in the `part_000` handler, and
there exactly when the extracted title is non-empty, distinct from the
placeholder `"N/A"`, and distinct from the candidate's mapped title;
the `search.js` and `part_002` handlers always keep the candidate's
title. -/
theorem c9_amended (env : FetchEnv) (b : Part000.BraveResult) (l : List Char)
    (hl : b.url = some l) (hne : l.isEmpty = false) :
    (Part000.mapAndProcess env b).1.extracted_content
        = (Part000.fetchAndExtractReadableContent (env l)).content
  ∧ (Part000.mapAndProcess env b).1.extracted_content_status
        = some (Part000.fetchAndExtractReadableContent (env l)).status
  ∧ (Part000.mapAndProcess env b).1.link = b.url
  ∧ (Part000.mapAndProcess env b).1.snippet
        = jsOrOpt b.description (jsOrOpt b.meta_url_path "N/A")
  ∧ (Part000.mapAndProcess env b).1.title
        = (if (Part000.fetchAndExtractReadableContent (env l)).title ≠ ""
              ∧ (Part000.fetchAndExtractReadableContent (env l)).title ≠ "N/A"
              ∧ (Part000.fetchAndExtractReadableContent (env l)).title
                  ≠ jsOrOpt b.title "N/A"
            then (Part000.fetchAndExtractReadableContent (env l)).title
            else jsOrOpt b.title "N/A")
  ∧ (∀ c : Candidate,
      (Part002.processResult env c).1.title = c.title
      ∧ (Part002.processResult env c).1.link = c.link
      ∧ (Part002.processResult env c).1.snippet = c.snippet
      ∧ (SearchJs.processResult env c).1.title = c.title
      ∧ (SearchJs.processResult env c).1.link = c.link
      ∧ (SearchJs.processResult env c).1.snippet = c.snippet) := by
  have hfields : ∀ c : Candidate,
      (Part002.processResult env c).1.title = c.title
      ∧ (Part002.processResult env c).1.link = c.link
      ∧ (Part002.processResult env c).1.snippet = c.snippet
      ∧ (SearchJs.processResult env c).1.title = c.title
      ∧ (SearchJs.processResult env c).1.link = c.link
      ∧ (SearchJs.processResult env c).1.snippet = c.snippet := by
    intro c
    cases hcl : c.link with
    | none =>
      simp [Part002.processResult, SearchJs.processResult, hcl, asAnnotated]
    | some link =>
      by_cases hce : link.isEmpty
      · by_cases hcli : isLinkedInUrl link <;>
          simp [Part002.processResult, SearchJs.processResult, hcl, hce, hcli,
            asAnnotated]
      · by_cases hcli : isLinkedInUrl link <;>
          simp [Part002.processResult, SearchJs.processResult, hcl, hce, hcli,
            asAnnotated]
  by_cases ht : (Part000.fetchAndExtractReadableContent (env l)).title ≠ ""
      ∧ (Part000.fetchAndExtractReadableContent (env l)).title ≠ "N/A"
      ∧ (Part000.fetchAndExtractReadableContent (env l)).title
          ≠ jsOrOpt b.title "N/A"
  · refine ⟨?_, ?_, ?_, ?_, ?_, hfields⟩ <;>
      simp [Part000.mapAndProcess, hl, hne, ht]
  · refine ⟨?_, ?_, ?_, ?_, ?_, hfields⟩ <;>
      simp [Part000.mapAndProcess, hl, hne, ht]

/-- C9 witness: the amended merge rule evaluated on a concrete Brave
result whose extracted title wins. -/
theorem c9_witness :
    (Part000.mapAndProcess envArticle
        { title := some "Original", url := some ("http://x".toList),
          description := some "d", meta_url_path := none }).1.extracted_content_status
      = some (Part000.fetchAndExtractReadableContent
          (envArticle ("http://x".toList))).status :=
  (c9_amended envArticle
    { title := some "Original", url := some ("http://x".toList),
      description := some "d", meta_url_path := none }
    ("http://x".toList) rfl (by decide)).2.1

/-- C10: in direct-fetch mode the handler responds with HTTP 200 for
every extraction outcome, including every failure; the record always
carries all five fields — `source_url` echoes the requested URL, and
`title`, `extracted_content`, `extracted_content_status` come from the
extraction outcome — so a failure is conveyed only through the status
string; the snippet is the `"N/A"` placeholder whenever the content is
null or empty, and any non-success outcome has null content. -/
theorem c10_direct_fetch (env : FetchEnv) (u : List Char) :
    (directFetchResponse env u).1 = 200
  ∧ (directFetchResponse env u).2.source_url = u
  ∧ (directFetchResponse env u).2.title
      = (Part000.fetchAndExtractReadableContent (env u)).title
  ∧ (directFetchResponse env u).2.extracted_content
      = (Part000.fetchAndExtractReadableContent (env u)).content
  ∧ (directFetchResponse env u).2.extracted_content_status
      = (Part000.fetchAndExtractReadableContent (env u)).status
  ∧ ((Part000.fetchAndExtractReadableContent (env u)).content = none →
      (directFetchResponse env u).2.snippet = naSnippet)
  ∧ ((Part000.fetchAndExtractReadableContent (env u)).content = some [] →
      (directFetchResponse env u).2.snippet = naSnippet)
  ∧ ((Part000.fetchAndExtractReadableContent (env u)).status ≠ successStatus →
      (directFetchResponse env u).2.extracted_content = none) := by
  refine ⟨rfl, rfl, rfl, rfl, rfl, ?_, ?_, ?_⟩
  · intro h
    simp [directFetchResponse, h]
  · intro h
    simp [directFetchResponse, h]
  · intro h
    have hiff := part000_extract_content_iff (env u)
    cases hc : (Part000.fetchAndExtractReadableContent (env u)).content with
    | none => simp [directFetchResponse, hc]
    | some c =>
      exfalso
      exact h (hiff.mp (by rw [hc]; rfl))

/-- C10 witness: the direct-fetch record evaluated on a concrete failed
fetch. -/
theorem c10_witness :
    (directFetchResponse env404 ("http://x".toList)).2.snippet = naSnippet :=
  (c10_direct_fetch env404 ("http://x".toList)).2.2.2.2.2.1 rfl
